import Mathlib

/-!
Shallow embedding of `generate_test_matches.py`, the synthetic test-match
generator of this repository, together with theorems settling the frozen
claims about it.

Strings are modelled as Lean `String` (lists of characters).  Python's
substring test (`in`) and `str.replace` (replace all non-overlapping
occurrences, scanning left to right) are re-implemented on `List Char`.
The seeded pseudorandom stream (`random.seed(42)` plus the `random.*`
calls) is modelled by an explicit oracle structure `SeededRand` whose
fields supply, per record index, the outcomes of the individual random
draws; the oracle is held fixed to express "same seed".  `uuid.uuid4()`,
which does NOT read the seeded stream (it draws fresh OS entropy on every
call), is modelled by a separate entropy stream `Nat → String` giving the
hex digest of the n-th uuid4 call of the run.
-/

namespace GenTestMatches

/-- `startsWithList pat t = true` iff `pat` is a prefix of `t`
(character-wise comparison, as Python string matching does). -/
def startsWithList : List Char → List Char → Bool
  | [], _ => true
  | _ :: _, [] => false
  | p :: ps, c :: cs => p == c && startsWithList ps cs

/-- Python's `pat in s` substring test on character lists:
true iff `pat` occurs contiguously somewhere in `t`. -/
def hasSubstring (pat : List Char) : List Char → Bool
  | [] => pat.isEmpty
  | c :: cs => startsWithList pat (c :: cs) || hasSubstring pat cs

/-- Python's `str.replace`, fuelled for structural recursion: replace
every non-overlapping occurrence of `pat` in `t` by `rep`, scanning left
to right.  Each step consumes at least one character of `t`, so fuel
`t.length` (supplied by `listReplace`) always suffices and the `fuel = 0`
case is unreachable there.  (In this repository the pattern is always
non-empty; the `!pat.isEmpty` guard makes the empty-pattern case a no-op
instead of Python's insert-everywhere behaviour, which the source never
exercises.) -/
def listReplaceFuel : Nat → List Char → List Char → List Char → List Char
  | 0, t, _, _ => t
  | fuel + 1, t, pat, rep =>
    match t with
    | [] => []
    | c :: cs =>
      if !pat.isEmpty && startsWithList pat (c :: cs) then
        rep ++ listReplaceFuel fuel ((c :: cs).drop pat.length) pat rep
      else
        c :: listReplaceFuel fuel cs pat rep

/-- Python's `str.replace` on character lists. -/
def listReplace (t pat rep : List Char) : List Char :=
  listReplaceFuel t.length t pat rep

/-- Python `pat in s` on `String`s. -/
def pyIn (pat s : String) : Bool := hasSubstring pat.data s.data

/-- Python `s.replace(pat, rep)` on `String`s. -/
def pyReplace (s pat rep : String) : String := ⟨listReplace s.data pat.data rep.data⟩

/-- Python `s.upper()` (the source only upper-cases ASCII hex digests and
addresses, where per-character ASCII upcasing is exact). -/
def pyUpper (s : String) : String := ⟨s.data.map Char.toUpper⟩

/-- Python `s.lower()`. -/
def pyLower (s : String) : String := ⟨s.data.map Char.toLower⟩

/-- Python slice `s[:n]`. -/
def pyTake (s : String) (n : Nat) : String := ⟨s.data.take n⟩

/-- Python slice `s[:-n]` (for `n ≤ len s`). -/
def pyDropRight (s : String) (n : Nat) : String := ⟨s.data.take (s.data.length - n)⟩

/-- Python `s.title()`: upper-case each letter that follows a non-letter,
lower-case every other letter. -/
def pyTitleGo : Bool → List Char → List Char
  | _, [] => []
  | prevAlpha, c :: cs =>
    (if c.isAlpha then (if prevAlpha then c.toLower else c.toUpper) else c)
      :: pyTitleGo c.isAlpha cs

/-- Python `s.title()` on `String`s. -/
def pyTitle (s : String) : String := ⟨pyTitleGo false s.data⟩

/-- `random.choice(l)` outcome: the oracle supplies an arbitrary `Nat`
which is reduced mod the list length, so every choice denotes an actual
element whenever the list is non-empty. -/
def pickMod (l : List String) (n : Nat) : String := l.getD (n % l.length) ""

/-- `random.choice` on a list of signed deltas. -/
def pickModInt (l : List Int) (n : Nat) : Int := l.getD (n % l.length) 0

/-- The apostrophe character `'` (code 39), used by
`name.replace("'", "")` in `create_very_close_match`. -/
def apos : String := ⟨[Char.ofNat 39]⟩

/-- Python `int(...)` on a string of decimal digits. -/
def digitsToNat (l : List Char) : Nat :=
  l.foldl (fun a c => 10 * a + (c.toNat - 48)) 0

/-- Python `s.isdigit()`: non-empty and all characters decimal digits. -/
def isDigitStr (s : String) : Bool := !s.data.isEmpty && s.data.all Char.isDigit

/-! ## Fixed configuration constants (module level in the source) -/

def EXACT_MATCH_COUNT : Nat := 50
def VERY_CLOSE_COUNT : Nat := 100
def SOMEWHAT_CLOSE_COUNT : Nat := 100
def NOT_CLOSE_COUNT : Nat := 250
def TOTAL_RECORDS : Nat := 500

/-- `SOURCE_SYSTEMS` distribution list. -/
def SOURCE_SYSTEMS : List String :=
  ["sap_hmh", "sfdc_hmh", "sfdc_nwea", "112",
   "sis_pearson", "erp_oracle", "crm_edtech"]

/-- `self.abbreviations`: full token → abbreviated alternatives
(dict insertion order preserved). -/
def abbreviations : List (String × List String) :=
  [("Street", ["St", "ST"]),
   ("Road", ["Rd", "RD"]),
   ("Drive", ["Dr", "DR"]),
   ("Avenue", ["Ave", "AVE"]),
   ("Boulevard", ["Blvd", "BLVD"]),
   ("North", ["N", "NORTH"]),
   ("South", ["S", "SOUTH"]),
   ("East", ["E", "EAST"]),
   ("West", ["W", "WEST"]),
   ("Northeast", ["NE", "NORTHEAST"]),
   ("Southeast", ["SE", "SOUTHEAST"]),
   ("Northwest", ["NW", "NORTHWEST"]),
   ("Southwest", ["SW", "SOUTHWEST"]),
   ("Elementary School", ["Elem School", "Elementary Sch", "Elem Sch"]),
   ("High School", ["HS", "High Sch", "Secondary School"]),
   ("Learning Center", ["Learning Centre", "Educational Center", "Education Center"]),
   ("Community College", ["Comm College", "CC", "Community Coll"]),
   ("School District", ["School Dist", "Sch Dist", "SD"])]

/-- `self.common_typos`: word → common misspellings. -/
def common_typos : List (String × List String) :=
  [("Academy", ["Acadamy", "Acadmey"]),
   ("Elementary", ["Elementry", "Elmentary"]),
   ("Secondary", ["Secondry", "Secandary"]),
   ("Community", ["Comunity", "Commmunity"]),
   ("Christian", ["Cristian", "Chirstian"]),
   ("Learning", ["Learing", "Lerning"]),
   ("District", ["Distict", "Distrct"]),
   ("College", ["Collge", "Colegee"])]

/-- The fixed street-type list of the not-close band
(`street_types` local in `create_not_close_match`). -/
def street_types : List String := ["St", "Ave", "Rd", "Dr", "Blvd", "Ct", "Ln", "Way"]

/-- The delta set of `vary_address_number` (`random.choice([-3,-2,-1,1,2,3])`). -/
def addressDeltas : List Int := [-3, -2, -1, 1, 2, 3]

/-! ## Perturbation primitives -/

/-- `generate_source_pkey`: `"TEST_" + uuid.uuid4().hex[:12].upper()`.
`e n` is the hex digest of the run's n-th `uuid4()` call — fresh OS
entropy, NOT derived from the seeded `random` stream. -/
def generate_source_pkey (e : Nat → String) (n : Nat) : String :=
  "TEST_" ++ pyUpper (pyTake (e n) 12)

/-- `apply_case_variations`: `random.choice` among
`[text.lower(), text.upper(), text.title(), text]`. -/
def apply_case_variations (text : String) (pick : Nat) : String :=
  pickMod [pyLower text, pyUpper text, pyTitle text, text] pick

/-- One iteration of the loop body of `apply_abbreviations`:
`if original in result: result = result.replace(original, random.choice(alternatives))`. -/
def abbrevStep (res : String) (p : String × List String) (pick : Nat) : String :=
  if pyIn p.1 res then pyReplace res p.1 (pickMod p.2 pick) else res

/-- The `for original, alternatives in random.sample(items, sample_size)`
loop of `apply_abbreviations`; `choice i` is the `random.choice` outcome
used at step `i`. -/
def abbrevLoop (res : String) (sample : List (String × List String))
    (choice : Nat → Nat) (i : Nat) : String :=
  match sample with
  | [] => res
  | p :: rest => abbrevLoop (abbrevStep res p (choice i)) rest choice (i + 1)

/-- `apply_abbreviations`, given the list `random.sample(items, sample_size)`
produced by the seeded stream (`sample`) and the per-step `random.choice`
outcomes (`choice`). -/
def apply_abbreviations (text : String) (sample : List (String × List String))
    (choice : Nat → Nat) : String :=
  abbrevLoop text sample choice 0

/-- `sample` is a possible value of `random.sample(pool, k)`:
`k` distinct elements of `pool` (in an arbitrary order). -/
def isSampleOf {α : Type} (sample pool : List α) (k : Nat) : Prop :=
  sample.length = k ∧ sample.Nodup ∧ ∀ x ∈ sample, x ∈ pool

/-- All possible outcomes of `apply_abbreviations(text, aggressive)`:
the sample size is `min(len(items), random.randint(1, 2))` for
non-aggressive calls and `min(len(items), random.randint(2, 4))` for
aggressive calls, and the sample is drawn from ALL of `self.abbreviations`. -/
def abbrevOutcome (text : String) (aggressive : Bool) (result : String) : Prop :=
  ∃ k sample choice,
    (if aggressive then 2 ≤ k ∧ k ≤ 4 else 1 ≤ k ∧ k ≤ 2) ∧
    isSampleOf sample abbreviations (min abbreviations.length k) ∧
    result = apply_abbreviations text sample choice

/-- One iteration of the loop body of `apply_typos`:
`result = result.replace(original, random.choice(alternatives))`
(no presence re-check, unlike `apply_abbreviations`). -/
def typoStep (res : String) (p : String × List String) (pick : Nat) : String :=
  pyReplace res p.1 (pickMod p.2 pick)

/-- The sampling loop of `apply_typos`. -/
def typoLoop (res : String) (sample : List (String × List String))
    (choice : Nat → Nat) (i : Nat) : String :=
  match sample with
  | [] => res
  | p :: rest => typoLoop (typoStep res p (choice i)) rest choice (i + 1)

/-- `available_typos`: the `common_typos` entries whose key occurs in the
text (`[(k, v) for k, v in self.common_typos.items() if k in result]`). -/
def availableTypos (text : String) : List (String × List String) :=
  common_typos.filter (fun p => pyIn p.1 text)

/-- `apply_typos`, given the list `random.sample(available_typos, ...)`
(`sample`) and the per-step `random.choice` outcomes (`choice`). -/
def apply_typos (text : String) (numTypos : Nat)
    (sample : List (String × List String)) (choice : Nat → Nat) : String :=
  if availableTypos text ≠ [] ∧ 0 < numTypos then typoLoop text sample choice 0
  else text

/-- All possible outcomes of `apply_typos(text, num_typos)`:
the sample is `random.sample(available_typos, min(num_typos, len(available_typos)))`. -/
def typosOutcome (text : String) (numTypos : Nat) (result : String) : Prop :=
  ∃ sample choice,
    isSampleOf sample (availableTypos text) (min numTypos (availableTypos text).length) ∧
    result = apply_typos text numTypos sample choice

/-- `vary_address_number`: parse the leading decimal integer
(`re.match(r'^(\d+)(.*)$', address)`, read here as "maximal leading digit
run plus the rest of the string", exact for the newline-free CSV fields
the generator processes), add a random delta from `addressDeltas`, clamp
at 1, re-concatenate.  No leading integer: address returned unchanged. -/
def vary_address_number (address : String) (deltaIdx : Nat) : String :=
  let digits := address.data.takeWhile Char.isDigit
  if digits = [] then address
  else
    let number : Int := digitsToNat digits
    let rest := address.data.dropWhile Char.isDigit
    let newNumber := number + pickModInt addressDeltas deltaIdx
    ⟨(toString (max 1 newNumber).toNat).data ++ rest⟩

/-- The random draws consumed by one `vary_postal_code` call:
`removePlus4` is the outcome of `random.random() < 0.3`, `plusDigit` the
`random.randint(0, 9)` of the ZIP+4 branch, `lastBranch` the outcome of
`random.random() < 0.5`, and `d1`, `d2` the `random.randint(0, 9)` draws
of the bare-5-digit branch (each reduced mod 10). -/
structure PostalDec where
  removePlus4 : Bool
  plusDigit : Nat
  lastBranch : Bool
  d1 : Nat
  d2 : Nat

/-- `str(random.randint(0, 9))`: a single decimal digit as a string. -/
def digitStr (n : Nat) : String := ⟨[Nat.digitChar (n % 10)]⟩

/-- Python `s.split('-')` on character lists. -/
def splitDash : List Char → List (List Char)
  | [] => [[]]
  | c :: cs =>
    if c = Char.ofNat 45 then [] :: splitDash cs
    else
      match splitDash cs with
      | [] => [[c]]
      | p :: ps => (c :: p) :: ps

/-- Python `postal_code.split('-')` on `String`s. -/
def pySplitDash (s : String) : List String := (splitDash s.data).map String.mk

/-- `vary_postal_code`. -/
def vary_postal_code (pc : String) (dec : PostalDec) : String :=
  if pyIn "-" pc then
    let parts := pySplitDash pc
    let p0 := parts.getD 0 ""
    let p1 := parts.getD 1 ""
    if p0.data.length = 5 ∧ isDigitStr p0 then
      if dec.removePlus4 then p0
      else if p1.data.length = 4 ∧ isDigitStr p1 then
        p0 ++ "-" ++ pyDropRight p1 1 ++ digitStr dec.plusDigit
      else pc
    else pc
  else if pc.data.length = 5 ∧ isDigitStr pc then
    if dec.lastBranch then pyDropRight pc 1 ++ digitStr dec.d1
    else pyDropRight pc 2 ++ digitStr dec.d1 ++ digitStr dec.d2
  else pc

/-- The street-type substitution block of `create_not_close_match`
(executed with probability 0.3): scan `street_types` in order, replace
the first one present in the address with a random member of the list
other than itself, then stop. -/
def substituteStreetType (address : String) (pick : Nat) : String :=
  match street_types.find? (fun t => pyIn t address) with
  | none => address
  | some st => pyReplace address st (pickMod (street_types.filter (fun t => t ≠ st)) pick)

/-! ## Records, errors, the band transforms and the pipeline -/

/-- A CSV record as produced by `csv.DictReader`: an association list from
column name to field value. -/
abbrev Row := List (String × String)

/-- The Python exceptions relevant to the spec's claims.  The source only
ever raises `keyError` (missing dict key) and `indexError` (list index out
of range); `configurationError` and `parseError` are the exception kinds
the spec claims and are never constructed by the embedded code. -/
inductive PyErr where
  | keyError (k : String)
  | indexError
  | configurationError
  | parseError
deriving DecidableEq, Repr

/-- Python `record['k']`: the value, or a `KeyError` if the column is absent. -/
def pyGet (r : Row) (k : String) : Except PyErr String :=
  match r.lookup k with
  | some v => .ok v
  | none => .error (.keyError k)

/-- `create_exact_match`: only `SOURCE_PKEY` and `SOURCE_SYSTEM` are fresh
(`pk` is the `generate_source_pkey()` result, `sys` the
`random.choice(SOURCE_SYSTEMS)` outcome); all other fields are copied. -/
def create_exact_match (pk sys : String) (record : Row) : Except PyErr Row := do
  let name ← pyGet record "NAME"
  let a1 ← pyGet record "ADDRESS_LINE_1"
  let a2 ← pyGet record "ADDRESS_LINE_2"
  let city ← pyGet record "CITY"
  let state ← pyGet record "STATE"
  let postal ← pyGet record "POSTAL_CODE"
  let country ← pyGet record "COUNTRY"
  pure [("SOURCE_PKEY", pk), ("NAME", name), ("SOURCE_SYSTEM", sys),
        ("ADDRESS_LINE_1", a1), ("ADDRESS_LINE_2", a2), ("CITY", city),
        ("STATE", state), ("POSTAL_CODE", postal), ("COUNTRY", country)]

/-- The random draws of one `create_very_close_match` call: `doCase` is
`random.random() < 0.7`, `doAbbrev` is `random.random() < 0.5`, `doApos`
is `random.random() < 0.3`, `sample`/`choice` are the non-aggressive
`apply_abbreviations` draws, `sysIdx` the `random.choice(SOURCE_SYSTEMS)`. -/
structure VCDec where
  doCase : Bool
  casePick : Nat
  doAbbrev : Bool
  sample : List (String × List String)
  choice : Nat → Nat
  doApos : Bool
  sysIdx : Nat

/-- `create_very_close_match`. -/
def create_very_close_match (pk : String) (d : VCDec) (record : Row) :
    Except PyErr Row := do
  let name0 ← pyGet record "NAME"
  let address0 ← pyGet record "ADDRESS_LINE_1"
  let name1 := if d.doCase then apply_case_variations name0 d.casePick else name0
  let address := if d.doAbbrev then apply_abbreviations address0 d.sample d.choice else address0
  let name := if d.doApos then pyReplace name1 apos "" else name1
  let a2 ← pyGet record "ADDRESS_LINE_2"
  let city ← pyGet record "CITY"
  let state ← pyGet record "STATE"
  let postal ← pyGet record "POSTAL_CODE"
  let country ← pyGet record "COUNTRY"
  pure [("SOURCE_PKEY", pk), ("NAME", name),
        ("SOURCE_SYSTEM", pickMod SOURCE_SYSTEMS d.sysIdx),
        ("ADDRESS_LINE_1", address), ("ADDRESS_LINE_2", a2), ("CITY", city),
        ("STATE", state), ("POSTAL_CODE", postal), ("COUNTRY", country)]

/-- The random draws of one `create_somewhat_close_match` call. -/
structure SCDec where
  nameSample : List (String × List String)
  nameChoice : Nat → Nat
  addrSample : List (String × List String)
  addrChoice : Nat → Nat
  doTypo : Bool
  typoSample : List (String × List String)
  typoChoice : Nat → Nat
  doVaryAddr : Bool
  delta : Nat
  doVaryPostal : Bool
  postal : PostalDec
  sysIdx : Nat

/-- `create_somewhat_close_match`. -/
def create_somewhat_close_match (pk : String) (d : SCDec) (record : Row) :
    Except PyErr Row := do
  let name0 ← pyGet record "NAME"
  let address0 ← pyGet record "ADDRESS_LINE_1"
  let postal0 ← pyGet record "POSTAL_CODE"
  let name1 := apply_abbreviations name0 d.nameSample d.nameChoice
  let address1 := apply_abbreviations address0 d.addrSample d.addrChoice
  let name := if d.doTypo then apply_typos name1 1 d.typoSample d.typoChoice else name1
  let address := if d.doVaryAddr then vary_address_number address1 d.delta else address1
  let postal := if d.doVaryPostal then vary_postal_code postal0 d.postal else postal0
  let a2 ← pyGet record "ADDRESS_LINE_2"
  let city ← pyGet record "CITY"
  let state ← pyGet record "STATE"
  let country ← pyGet record "COUNTRY"
  pure [("SOURCE_PKEY", pk), ("NAME", name),
        ("SOURCE_SYSTEM", pickMod SOURCE_SYSTEMS d.sysIdx),
        ("ADDRESS_LINE_1", address), ("ADDRESS_LINE_2", a2), ("CITY", city),
        ("STATE", state), ("POSTAL_CODE", postal), ("COUNTRY", country)]

/-- The random draws of one `create_not_close_match` call:
`numTypos` is the `random.randint(1, 2)` outcome, `doStreet` the
`random.random() < 0.3` outcome, `streetPick` the street-type
`random.choice`. -/
structure NCDec where
  nameSample : List (String × List String)
  nameChoice : Nat → Nat
  numTypos : Nat
  typoSample : List (String × List String)
  typoChoice : Nat → Nat
  addrSample : List (String × List String)
  addrChoice : Nat → Nat
  delta : Nat
  postal : PostalDec
  doStreet : Bool
  streetPick : Nat
  sysIdx : Nat

/-- `create_not_close_match`. -/
def create_not_close_match (pk : String) (d : NCDec) (record : Row) :
    Except PyErr Row := do
  let name0 ← pyGet record "NAME"
  let name1 := apply_abbreviations name0 d.nameSample d.nameChoice
  let name := apply_typos name1 d.numTypos d.typoSample d.typoChoice
  let address0 ← pyGet record "ADDRESS_LINE_1"
  let address1 := apply_abbreviations address0 d.addrSample d.addrChoice
  let address2 := vary_address_number address1 d.delta
  let postal0 ← pyGet record "POSTAL_CODE"
  let postal := vary_postal_code postal0 d.postal
  let address := if d.doStreet then substituteStreetType address2 d.streetPick else address2
  let a2 ← pyGet record "ADDRESS_LINE_2"
  let city ← pyGet record "CITY"
  let state ← pyGet record "STATE"
  let country ← pyGet record "COUNTRY"
  pure [("SOURCE_PKEY", pk), ("NAME", name),
        ("SOURCE_SYSTEM", pickMod SOURCE_SYSTEMS d.sysIdx),
        ("ADDRESS_LINE_1", address), ("ADDRESS_LINE_2", a2), ("CITY", city),
        ("STATE", state), ("POSTAL_CODE", postal), ("COUNTRY", country)]

/-- The seeded pseudorandom stream of a run, fixed by `random.seed(42)`:
`shuffle` is the permutation `random.shuffle` applies to the pool, and the
per-record decision families give the outcomes of every other `random.*`
call made while generating record number `i`.  Holding a `SeededRand`
value fixed expresses "same seed, same seeded stream". -/
structure SeededRand where
  shuffle : List Row → List Row
  exactSys : Nat → Nat
  vc : Nat → VCDec
  sc : Nat → SCDec
  nc : Nat → NCDec

/-- One of the four `for i in range(count)` loops of `generate_test_data`:
take the record at `source_records[idx]` (raising `IndexError` past the
end, as Python list indexing does), apply `create`, append to the output.
On an exception the partial output accumulated so far (the state of
`self.output_data` contributed by this loop) is carried in the error. -/
def genBand (create : Nat → Row → Except PyErr Row) (records : List Row) :
    Nat → Nat → Except (PyErr × List Row) (List Row)
  | 0, _ => .ok []
  | count + 1, idx =>
    match records.get? idx with
    | none => .error (.indexError, [])
    | some r =>
      match create idx r with
      | .error er => .error (er, [])
      | .ok out =>
        match genBand create records count (idx + 1) with
        | .error (er, rest) => .error (er, out :: rest)
        | .ok rest => .ok (out :: rest)

/-- `generate_test_data`: shuffle the pool, then run the four band loops
with a running `record_index`.  The result is the final `self.output_data`
(or the raised exception together with the partial `self.output_data`).
The source performs no pool-size check of any kind before the loops. -/
def generate_test_data (sr : SeededRand) (e : Nat → String) (valid : List Row) :
    Except (PyErr × List Row) (List Row) :=
  let source := sr.shuffle valid
  match genBand (fun i r =>
      create_exact_match (generate_source_pkey e i)
        (pickMod SOURCE_SYSTEMS (sr.exactSys i)) r) source EXACT_MATCH_COUNT 0 with
  | .error (er, p) => .error (er, p)
  | .ok o1 =>
    match genBand (fun i r =>
        create_very_close_match (generate_source_pkey e i) (sr.vc i) r)
        source VERY_CLOSE_COUNT EXACT_MATCH_COUNT with
    | .error (er, p) => .error (er, o1 ++ p)
    | .ok o2 =>
      match genBand (fun i r =>
          create_somewhat_close_match (generate_source_pkey e i) (sr.sc i) r)
          source SOMEWHAT_CLOSE_COUNT (EXACT_MATCH_COUNT + VERY_CLOSE_COUNT) with
      | .error (er, p) => .error (er, o1 ++ o2 ++ p)
      | .ok o3 =>
        match genBand (fun i r =>
            create_not_close_match (generate_source_pkey e i) (sr.nc i) r)
            source NOT_CLOSE_COUNT
            (EXACT_MATCH_COUNT + VERY_CLOSE_COUNT + SOMEWHAT_CLOSE_COUNT) with
        | .error (er, p) => .error (er, o1 ++ o2 ++ o3 ++ p)
        | .ok o4 => .ok (o1 ++ o2 ++ o3 ++ o4)

/-- An input file as seen by `csv.DictReader`: a header row and data rows. -/
structure Csv where
  header : List String
  rows : List (List String)
deriving DecidableEq

/-- `load_valid_data`: `list(csv.DictReader(f))` — each data row becomes a
dict keyed by the header.  No validation of any kind is performed: a
missing required column simply yields dicts without that key. -/
def load_valid_data (f : Csv) : List Row :=
  f.rows.map (fun fields => f.header.zip fields)

/-- The fixed output column order of `save_test_data`. -/
def fieldnames : List String :=
  ["SOURCE_PKEY", "NAME", "SOURCE_SYSTEM", "ADDRESS_LINE_1",
   "ADDRESS_LINE_2", "CITY", "STATE", "POSTAL_CODE", "COUNTRY"]

/-- One output row as written by `csv.DictWriter.writerow`: the record's
values in `fieldnames` order. -/
def rowOut (r : Row) : List String := fieldnames.map (fun c => (r.lookup c).getD "")

/-- `save_test_data`: header plus one row per generated record, in order.
The resulting `Csv` value stands for the byte content of the output file. -/
def save_test_data (outputData : List Row) : Csv :=
  ⟨fieldnames, outputData.map rowOut⟩

/-- `main` (after `random.seed(42)`): load `valid.csv`, generate, save.
Returns the written output file, or the uncaught exception (with the
partial in-memory output at that point); on an exception
`save_test_data` is never reached and no output file is produced. -/
def main (sr : SeededRand) (e : Nat → String) (input : Csv) :
    Except (PyErr × List Row) Csv :=
  match generate_test_data sr e (load_valid_data input) with
  | .error x => .error x
  | .ok outs => .ok (save_test_data outs)

/-! ## Concrete fixtures used by counterexamples and witnesses -/

/-- The required input columns read by the band transforms. -/
def requiredCols : List String :=
  ["NAME", "ADDRESS_LINE_1", "ADDRESS_LINE_2", "CITY", "STATE",
   "POSTAL_CODE", "COUNTRY"]

/-- A record that has every required column (possibly with empty values). -/
def goodRow (r : Row) : Bool := requiredCols.all (fun c => (r.lookup c).isSome)

/-- Trivial very-close decisions (all coins false). -/
def vcDec0 : VCDec := ⟨false, 0, false, [], fun _ => 0, false, 0⟩

/-- Trivial postal-code decisions. -/
def postalDec0 : PostalDec := ⟨false, 0, false, 0, 0⟩

/-- Trivial somewhat-close decisions. -/
def scDec0 : SCDec :=
  ⟨[], fun _ => 0, [], fun _ => 0, false, [], fun _ => 0, false, 0, false, postalDec0, 0⟩

/-- Trivial not-close decisions. -/
def ncDec0 : NCDec :=
  ⟨[], fun _ => 0, 1, [], fun _ => 0, [], fun _ => 0, 0, postalDec0, false, 0, 0⟩

/-- A concrete seeded stream: the identity shuffle with trivial decisions.
(Any fixed seed determines some such value; which one is irrelevant to
the theorems below.) -/
def sr0 : SeededRand := ⟨id, fun _ => 0, fun _ => vcDec0, fun _ => scDec0, fun _ => ncDec0⟩

/-- An entropy stream whose every uuid4 digest is `"aaaaaaaaaaaa"`. -/
def entA : Nat → String := fun _ => "aaaaaaaaaaaa"

/-- An entropy stream whose every uuid4 digest is `"bbbbbbbbbbbb"`. -/
def entB : Nat → String := fun _ => "bbbbbbbbbbbb"

/-- An entropy stream with distinct digests at positions 0 and 1. -/
def entAB : Nat → String := fun n => if n = 0 then "aaaaaaaaaaaa" else "bbbbbbbbbbbb"

/-- A well-formed canonical record's field values. -/
def fields0 : List String :=
  ["Lincoln Elementary School", "123 Main St", "", "Springfield", "IL", "62701", "USA"]

/-- An input file with all required columns and 500 records. -/
def csv500 : Csv := ⟨requiredCols, List.replicate 500 fields0⟩

/-- An input file with all required columns but only 10 records. -/
def csv10 : Csv := ⟨requiredCols, List.replicate 10 fields0⟩

/-- An input file whose header is missing the required `NAME` column. -/
def csvNoName : Csv :=
  ⟨["ADDRESS_LINE_1", "ADDRESS_LINE_2", "CITY", "STATE", "POSTAL_CODE", "COUNTRY"],
   List.replicate 10 ["123 Main St", "", "Springfield", "IL", "62701", "USA"]⟩

/-! ## Helper lemmas about the string primitives -/

/-- The fuel argument of `listReplaceFuel` is irrelevant once it is at
least the text length. -/
theorem listReplaceFuel_congr (pat rep : List Char) :
    ∀ n t, List.length t ≤ n → ∀ f, List.length t ≤ f →
      listReplaceFuel f t pat rep = listReplaceFuel t.length t pat rep := by
  intro n
  induction n with
  | zero =>
    intro t ht f _
    have ht0 : t = [] := List.eq_nil_of_length_eq_zero (Nat.le_zero.mp ht)
    subst ht0
    cases f <;> rfl
  | succ n ih =>
    intro t ht f hf
    cases t with
    | nil => cases f <;> rfl
    | cons c cs =>
      cases f with
      | zero => simp at hf
      | succ f =>
        simp only [List.length_cons] at ht hf ⊢
        simp only [listReplaceFuel]
        by_cases hcond : (!pat.isEmpty && startsWithList pat (c :: cs)) = true
        · rw [if_pos hcond, if_pos hcond]
          have hpat : 1 ≤ pat.length := by
            cases pat
            · simp at hcond
            · simp
          have hdlen : ((c :: cs).drop pat.length).length ≤ cs.length := by
            simp only [List.length_drop, List.length_cons]
            omega
          have h1 := ih ((c :: cs).drop pat.length) (by omega) f (by omega)
          have h2 := ih ((c :: cs).drop pat.length) (by omega) cs.length (by omega)
          rw [h1, h2]
        · rw [if_neg hcond, if_neg hcond]
          have h1 := ih cs (by omega) f (by omega)
          exact congrArg (c :: ·) h1

/-- Single unfolding of `listReplace` on a non-empty text. -/
theorem listReplace_cons (c : Char) (cs pat rep : List Char) :
    listReplace (c :: cs) pat rep =
      if !pat.isEmpty && startsWithList pat (c :: cs) then
        rep ++ listReplace ((c :: cs).drop pat.length) pat rep
      else c :: listReplace cs pat rep := by
  unfold listReplace
  simp only [List.length_cons, listReplaceFuel]
  by_cases hcond : (!pat.isEmpty && startsWithList pat (c :: cs)) = true
  · rw [if_pos hcond, if_pos hcond]
    have hpat : 1 ≤ pat.length := by
      cases pat
      · simp at hcond
      · simp
    congr 1
    exact listReplaceFuel_congr pat rep cs.length ((c :: cs).drop pat.length)
      (by simp only [List.length_drop, List.length_cons]; omega) cs.length
      (by simp only [List.length_drop, List.length_cons]; omega)
  · rw [if_neg hcond, if_neg hcond]

/-- A pattern starts every list it prefixes. -/
theorem startsWithList_self_append (l t : List Char) :
    startsWithList l (l ++ t) = true := by
  induction l with
  | nil => rfl
  | cons p ps ih => simp [startsWithList, ih]

/-- `str.replace` fires on a leading occurrence of the pattern — however
the text continues, with no word-boundary check — and then keeps
scanning the remainder of the text. -/
theorem listReplace_head (pat rep t : List Char) (h : pat ≠ []) :
    listReplace (pat ++ t) pat rep = rep ++ listReplace t pat rep := by
  cases pat with
  | nil => exact absurd rfl h
  | cons p ps =>
    rw [List.cons_append, listReplace_cons]
    rw [if_pos]
    · rw [← List.cons_append, List.drop_left]
    · simp only [List.isEmpty_cons, Bool.not_false, Bool.true_and, ← List.cons_append]
      exact startsWithList_self_append (p :: ps) t

/-- `str.replace` is the identity when the pattern does not occur in the
text. -/
theorem listReplace_of_not_hasSubstring (pat rep : List Char) :
    ∀ t, hasSubstring pat t = false → listReplace t pat rep = t := by
  intro t
  induction t with
  | nil => intro _; rfl
  | cons c cs ih =>
    intro h
    simp only [hasSubstring, Bool.or_eq_false_iff] at h
    rw [listReplace_cons, if_neg, ih h.2]
    simp [h.1]

/-- Single-character substring test is list membership. -/
theorem hasSubstring_singleton (c : Char) (l : List Char) :
    hasSubstring [c] l = true ↔ c ∈ l := by
  induction l with
  | nil => simp [hasSubstring, List.isEmpty]
  | cons d ds ih =>
    simp [hasSubstring, startsWithList, ih, List.mem_cons]

/-- `random.choice` on a non-empty list returns an element of it. -/
theorem pickMod_mem (l : List String) (n : Nat) (h : l ≠ []) : pickMod l n ∈ l := by
  unfold pickMod
  have hlt : n % l.length < l.length := Nat.mod_lt _ (List.length_pos.mpr h)
  rw [List.getD_eq_getElem?_getD, List.getElem?_eq_getElem hlt]
  exact List.getElem_mem hlt

/-- `random.choice` on a two-element list is one of the two. -/
theorem pickMod_pair (a b : String) (n : Nat) :
    pickMod [a, b] n = a ∨ pickMod [a, b] n = b := by
  unfold pickMod
  rcases Nat.mod_two_eq_zero_or_one n with h | h <;> simp [h]

/-- `str(random.randint(0, 9))` is a decimal digit. -/
theorem digitChar_isDigit : ∀ m, m < 10 → (Nat.digitChar m).isDigit = true := by
  decide

/-- Indexing into `List.replicate`. -/
theorem replicate_get? {α : Type} (a : α) :
    ∀ n i, i < n → (List.replicate n a).get? i = some a := by
  intro n
  induction n with
  | zero => omega
  | succ n ih =>
    intro i hi
    cases i with
    | zero => rfl
    | succ i => exact ih i (by omega)

/-! ## Pipeline lemmas: totality of the band transforms on well-formed
records, and the resulting shape of a full generation run -/

/-- On a record with all required columns, `create_exact_match` succeeds
and its output carries the supplied `SOURCE_PKEY`. -/
theorem create_exact_match_ok (pk sys : String) (r : Row) (h : goodRow r = true) :
    ∃ out, create_exact_match pk sys r = .ok out ∧
      out.lookup "SOURCE_PKEY" = some pk := by
  simp only [goodRow, requiredCols, List.all_cons, List.all_nil, Bool.and_eq_true,
    Option.isSome_iff_exists] at h
  obtain ⟨⟨n, hn⟩, ⟨a1, ha1⟩, ⟨a2, ha2⟩, ⟨ci, hci⟩, ⟨st, hst⟩, ⟨po, hpo⟩, ⟨co, hco⟩, -⟩ := h
  refine ⟨[("SOURCE_PKEY", pk), ("NAME", n), ("SOURCE_SYSTEM", sys),
      ("ADDRESS_LINE_1", a1), ("ADDRESS_LINE_2", a2), ("CITY", ci),
      ("STATE", st), ("POSTAL_CODE", po), ("COUNTRY", co)], ?_, ?_⟩
  · simp only [create_exact_match, pyGet, hn, ha1, ha2, hci, hst, hpo, hco]
    rfl
  · simp [List.lookup]

/-- On a record with all required columns, `create_very_close_match`
succeeds and its output carries the supplied `SOURCE_PKEY`. -/
theorem create_very_close_match_ok (pk : String) (d : VCDec) (r : Row)
    (h : goodRow r = true) :
    ∃ out, create_very_close_match pk d r = .ok out ∧
      out.lookup "SOURCE_PKEY" = some pk := by
  simp only [goodRow, requiredCols, List.all_cons, List.all_nil, Bool.and_eq_true,
    Option.isSome_iff_exists] at h
  obtain ⟨⟨n, hn⟩, ⟨a1, ha1⟩, ⟨a2, ha2⟩, ⟨ci, hci⟩, ⟨st, hst⟩, ⟨po, hpo⟩, ⟨co, hco⟩, -⟩ := h
  refine ⟨[("SOURCE_PKEY", pk),
      ("NAME", if d.doApos then
          pyReplace (if d.doCase then apply_case_variations n d.casePick else n) apos ""
        else if d.doCase then apply_case_variations n d.casePick else n),
      ("SOURCE_SYSTEM", pickMod SOURCE_SYSTEMS d.sysIdx),
      ("ADDRESS_LINE_1", if d.doAbbrev then apply_abbreviations a1 d.sample d.choice else a1),
      ("ADDRESS_LINE_2", a2), ("CITY", ci), ("STATE", st), ("POSTAL_CODE", po),
      ("COUNTRY", co)], ?_, ?_⟩
  · simp only [create_very_close_match, pyGet, hn, ha1, ha2, hci, hst, hpo, hco]
    rfl
  · simp [List.lookup]

/-- On a record with all required columns, `create_somewhat_close_match`
succeeds and its output carries the supplied `SOURCE_PKEY`. -/
theorem create_somewhat_close_match_ok (pk : String) (d : SCDec) (r : Row)
    (h : goodRow r = true) :
    ∃ out, create_somewhat_close_match pk d r = .ok out ∧
      out.lookup "SOURCE_PKEY" = some pk := by
  simp only [goodRow, requiredCols, List.all_cons, List.all_nil, Bool.and_eq_true,
    Option.isSome_iff_exists] at h
  obtain ⟨⟨n, hn⟩, ⟨a1, ha1⟩, ⟨a2, ha2⟩, ⟨ci, hci⟩, ⟨st, hst⟩, ⟨po, hpo⟩, ⟨co, hco⟩, -⟩ := h
  refine ⟨[("SOURCE_PKEY", pk),
      ("NAME", if d.doTypo then
          apply_typos (apply_abbreviations n d.nameSample d.nameChoice) 1
            d.typoSample d.typoChoice
        else apply_abbreviations n d.nameSample d.nameChoice),
      ("SOURCE_SYSTEM", pickMod SOURCE_SYSTEMS d.sysIdx),
      ("ADDRESS_LINE_1", if d.doVaryAddr then
          vary_address_number (apply_abbreviations a1 d.addrSample d.addrChoice) d.delta
        else apply_abbreviations a1 d.addrSample d.addrChoice),
      ("ADDRESS_LINE_2", a2), ("CITY", ci), ("STATE", st),
      ("POSTAL_CODE", if d.doVaryPostal then vary_postal_code po d.postal else po),
      ("COUNTRY", co)], ?_, ?_⟩
  · simp only [create_somewhat_close_match, pyGet, hn, ha1, ha2, hci, hst, hpo, hco]
    rfl
  · simp [List.lookup]

/-- On a record with all required columns, `create_not_close_match`
succeeds and its output carries the supplied `SOURCE_PKEY`. -/
theorem create_not_close_match_ok (pk : String) (d : NCDec) (r : Row)
    (h : goodRow r = true) :
    ∃ out, create_not_close_match pk d r = .ok out ∧
      out.lookup "SOURCE_PKEY" = some pk := by
  simp only [goodRow, requiredCols, List.all_cons, List.all_nil, Bool.and_eq_true,
    Option.isSome_iff_exists] at h
  obtain ⟨⟨n, hn⟩, ⟨a1, ha1⟩, ⟨a2, ha2⟩, ⟨ci, hci⟩, ⟨st, hst⟩, ⟨po, hpo⟩, ⟨co, hco⟩, -⟩ := h
  refine ⟨[("SOURCE_PKEY", pk),
      ("NAME", apply_typos (apply_abbreviations n d.nameSample d.nameChoice) d.numTypos
        d.typoSample d.typoChoice),
      ("SOURCE_SYSTEM", pickMod SOURCE_SYSTEMS d.sysIdx),
      ("ADDRESS_LINE_1", if d.doStreet then
          substituteStreetType
            (vary_address_number (apply_abbreviations a1 d.addrSample d.addrChoice) d.delta)
            d.streetPick
        else vary_address_number (apply_abbreviations a1 d.addrSample d.addrChoice) d.delta),
      ("ADDRESS_LINE_2", a2), ("CITY", ci), ("STATE", st),
      ("POSTAL_CODE", vary_postal_code po d.postal),
      ("COUNTRY", co)], ?_, ?_⟩
  · simp only [create_not_close_match, pyGet, hn, ha1, ha2, hci, hst, hpo, hco]
    rfl
  · simp [List.lookup]

/-- A band loop over records that all exist and are well-formed succeeds,
produces exactly `count` records, and the j-th output's `SOURCE_PKEY` is
the one generated for global record index `idx + j`. -/
theorem genBand_ok (create : Nat → Row → Except PyErr Row) (records : List Row)
    (pks : Nat → String)
    (hc : ∀ i r, goodRow r = true → ∃ out, create i r = .ok out ∧
        out.lookup "SOURCE_PKEY" = some (pks i)) :
    ∀ count idx,
      (∀ j, j < count → ∃ r, records.get? (idx + j) = some r ∧ goodRow r = true) →
      ∃ outs, genBand create records count idx = .ok outs ∧ outs.length = count ∧
        ∀ j, j < count → ∃ o, outs.get? j = some o ∧
          o.lookup "SOURCE_PKEY" = some (pks (idx + j)) := by
  intro count
  induction count with
  | zero => exact fun idx _ => ⟨[], rfl, rfl, fun j hj => by omega⟩
  | succ n ih =>
    intro idx hrec
    obtain ⟨r, hr, hg⟩ := hrec 0 (by omega)
    rw [Nat.add_zero] at hr
    obtain ⟨out, hout, hpk⟩ := hc idx r hg
    obtain ⟨outs, houts, hlen, hchar⟩ := ih (idx + 1) (fun j hj => by
      have hh := hrec (j + 1) (by omega)
      rwa [show idx + (j + 1) = idx + 1 + j by omega] at hh)
    refine ⟨out :: outs, ?_, by simp [hlen], ?_⟩
    · simp only [genBand, hr, hout, houts]
    · intro j hj
      cases j with
      | zero => exact ⟨out, rfl, by simpa using hpk⟩
      | succ j =>
        obtain ⟨o, ho, hpko⟩ := hchar j (by omega)
        exact ⟨o, by simpa using ho,
          by rwa [show idx + 1 + j = idx + (j + 1) by omega] at hpko⟩

/-- A full generation run over a pool whose shuffled form has (at least)
`TOTAL_RECORDS` well-formed records succeeds, produces exactly
`TOTAL_RECORDS` records, and the i-th output's `SOURCE_PKEY` is
`generate_source_pkey` applied to the i-th entropy draw. -/
theorem generate_test_data_ok (sr : SeededRand) (e : Nat → String) (valid : List Row)
    (hpool : ∀ i, i < TOTAL_RECORDS →
      ∃ r, (sr.shuffle valid).get? i = some r ∧ goodRow r = true) :
    ∃ outs, generate_test_data sr e valid = .ok outs ∧ outs.length = TOTAL_RECORDS ∧
      ∀ i, i < TOTAL_RECORDS → ∃ o, outs.get? i = some o ∧
        o.lookup "SOURCE_PKEY" = some (generate_source_pkey e i) := by
  simp only [TOTAL_RECORDS] at hpool ⊢
  obtain ⟨o1, h1, hl1, hc1⟩ := genBand_ok
    (fun i r => create_exact_match (generate_source_pkey e i)
      (pickMod SOURCE_SYSTEMS (sr.exactSys i)) r)
    (sr.shuffle valid) (generate_source_pkey e)
    (fun i r hg => create_exact_match_ok (generate_source_pkey e i)
      (pickMod SOURCE_SYSTEMS (sr.exactSys i)) r hg)
    EXACT_MATCH_COUNT 0
    (fun j hj => by
      simp only [EXACT_MATCH_COUNT] at hj
      simpa using hpool j (by omega))
  obtain ⟨o2, h2, hl2, hc2⟩ := genBand_ok
    (fun i r => create_very_close_match (generate_source_pkey e i) (sr.vc i) r)
    (sr.shuffle valid) (generate_source_pkey e)
    (fun i r hg => create_very_close_match_ok (generate_source_pkey e i) (sr.vc i) r hg)
    VERY_CLOSE_COUNT EXACT_MATCH_COUNT
    (fun j hj => by
      simp only [VERY_CLOSE_COUNT] at hj
      simp only [EXACT_MATCH_COUNT]
      exact hpool (50 + j) (by omega))
  obtain ⟨o3, h3, hl3, hc3⟩ := genBand_ok
    (fun i r => create_somewhat_close_match (generate_source_pkey e i) (sr.sc i) r)
    (sr.shuffle valid) (generate_source_pkey e)
    (fun i r hg => create_somewhat_close_match_ok (generate_source_pkey e i) (sr.sc i) r hg)
    SOMEWHAT_CLOSE_COUNT (EXACT_MATCH_COUNT + VERY_CLOSE_COUNT)
    (fun j hj => by
      simp only [SOMEWHAT_CLOSE_COUNT] at hj
      simp only [EXACT_MATCH_COUNT, VERY_CLOSE_COUNT]
      exact hpool (50 + 100 + j) (by omega))
  obtain ⟨o4, h4, hl4, hc4⟩ := genBand_ok
    (fun i r => create_not_close_match (generate_source_pkey e i) (sr.nc i) r)
    (sr.shuffle valid) (generate_source_pkey e)
    (fun i r hg => create_not_close_match_ok (generate_source_pkey e i) (sr.nc i) r hg)
    NOT_CLOSE_COUNT (EXACT_MATCH_COUNT + VERY_CLOSE_COUNT + SOMEWHAT_CLOSE_COUNT)
    (fun j hj => by
      simp only [NOT_CLOSE_COUNT] at hj
      simp only [EXACT_MATCH_COUNT, VERY_CLOSE_COUNT, SOMEWHAT_CLOSE_COUNT]
      exact hpool (50 + 100 + 100 + j) (by omega))
  simp only [EXACT_MATCH_COUNT, VERY_CLOSE_COUNT, SOMEWHAT_CLOSE_COUNT,
    NOT_CLOSE_COUNT] at hl1 hl2 hl3 hl4 hc1 hc2 hc3 hc4
  have hlen12 : (o1 ++ o2).length = 150 := by simp [hl1, hl2]
  have hlen123 : (o1 ++ o2 ++ o3).length = 250 := by simp [hl1, hl2, hl3]
  refine ⟨o1 ++ o2 ++ o3 ++ o4, ?_, by simp [hl1, hl2, hl3, hl4], ?_⟩
  · simp only [generate_test_data]
    rw [h1, h2, h3, h4]
  · intro i hi
    by_cases hi1 : i < 50
    · obtain ⟨o, ho, hop⟩ := hc1 i hi1
      refine ⟨o, ?_, by simpa using hop⟩
      rw [List.get?_append (by omega), List.get?_append (by omega),
        List.get?_append (by omega)]
      exact ho
    · by_cases hi2 : i < 150
      · obtain ⟨o, ho, hop⟩ := hc2 (i - 50) (by omega)
        refine ⟨o, ?_, by rw [show 50 + (i - 50) = i by omega] at hop; exact hop⟩
        rw [List.get?_append (by omega), List.get?_append (by omega),
          List.get?_append_right (by omega), hl1]
        exact ho
      · by_cases hi3 : i < 250
        · obtain ⟨o, ho, hop⟩ := hc3 (i - 150) (by omega)
          refine ⟨o, ?_, by rw [show 50 + 100 + (i - 150) = i by omega] at hop; exact hop⟩
          rw [List.get?_append (by omega), List.get?_append_right (by omega)]
          rw [List.length_append, hl1, hl2]
          rw [show i - (50 + 100) = i - 150 by omega]
          exact ho
        · obtain ⟨o, ho, hop⟩ := hc4 (i - 250) (by omega)
          refine ⟨o, ?_,
            by rw [show 50 + 100 + 100 + (i - 250) = i by omega] at hop; exact hop⟩
          rw [List.get?_append_right (by omega)]
          rw [List.length_append, List.length_append, hl1, hl2, hl3]
          rw [show i - (50 + 100 + 100) = i - 250 by omega]
          exact ho

/-- The shuffled `csv500` pool: 500 well-formed records under the
identity shuffle of `sr0`. -/
theorem csv500_good : ∀ i, i < TOTAL_RECORDS →
    ∃ r, (sr0.shuffle (load_valid_data csv500)).get? i = some r ∧ goodRow r = true := by
  intro i hi
  simp only [TOTAL_RECORDS] at hi
  refine ⟨requiredCols.zip fields0, ?_, by decide⟩
  show (load_valid_data csv500).get? i = _
  simp only [load_valid_data, csv500, List.map_replicate]
  exact replicate_get? _ 500 i hi

/-- Appending to a fixed string on the left is injective. -/
theorem string_append_cancel (a b c : String) (h : a ++ b = a ++ c) : b = c := by
  have hd : a.data ++ b.data = a.data ++ c.data := congrArg String.data h
  have hbc := List.append_cancel_left hd
  cases b
  cases c
  exact congrArg String.mk hbc

/-! ## Claim theorems -/

/-- C4: on every canonical record (with all declared columns), the
exact-band transform `create_exact_match` produces a derived record whose
NAME, ADDRESS_LINE_1, ADDRESS_LINE_2, CITY, STATE, POSTAL_CODE and
COUNTRY are identical to the source record's; only the identifier
(`SOURCE_PKEY`, freshly generated) and `SOURCE_SYSTEM` (freshly drawn)
are set anew. -/
theorem c4_exact_band_fidelity (pk sys : String) (r : Row) (h : goodRow r = true) :
    ∃ out, create_exact_match pk sys r = .ok out ∧
      out.lookup "NAME" = r.lookup "NAME" ∧
      out.lookup "ADDRESS_LINE_1" = r.lookup "ADDRESS_LINE_1" ∧
      out.lookup "ADDRESS_LINE_2" = r.lookup "ADDRESS_LINE_2" ∧
      out.lookup "CITY" = r.lookup "CITY" ∧
      out.lookup "STATE" = r.lookup "STATE" ∧
      out.lookup "POSTAL_CODE" = r.lookup "POSTAL_CODE" ∧
      out.lookup "COUNTRY" = r.lookup "COUNTRY" ∧
      out.lookup "SOURCE_PKEY" = some pk ∧
      out.lookup "SOURCE_SYSTEM" = some sys := by
  simp only [goodRow, requiredCols, List.all_cons, List.all_nil, Bool.and_eq_true,
    Option.isSome_iff_exists] at h
  obtain ⟨⟨n, hn⟩, ⟨a1, ha1⟩, ⟨a2, ha2⟩, ⟨ci, hci⟩, ⟨st, hst⟩, ⟨po, hpo⟩, ⟨co, hco⟩, -⟩ := h
  refine ⟨[("SOURCE_PKEY", pk), ("NAME", n), ("SOURCE_SYSTEM", sys),
      ("ADDRESS_LINE_1", a1), ("ADDRESS_LINE_2", a2), ("CITY", ci),
      ("STATE", st), ("POSTAL_CODE", po), ("COUNTRY", co)], ?_, ?_⟩
  · simp only [create_exact_match, pyGet, hn, ha1, ha2, hci, hst, hpo, hco]
    rfl
  · simp [List.lookup, hn, ha1, ha2, hci, hst, hpo, hco]

/-- C4 witness: the fidelity theorem applied at a concrete record. -/
theorem c4_exact_band_fidelity_witness :
    goodRow (requiredCols.zip fields0) = true ∧
    ∃ out, create_exact_match "TEST_0123456789AB" "sap_hmh" (requiredCols.zip fields0) = .ok out ∧
      out.lookup "NAME" = (requiredCols.zip fields0).lookup "NAME" := by
  refine ⟨by decide, ?_⟩
  obtain ⟨out, heq, hname, -⟩ := c4_exact_band_fidelity "TEST_0123456789AB" "sap_hmh"
    (requiredCols.zip fields0) (by decide)
  exact ⟨out, heq, hname⟩

/-- C7: `vary_address_number` adds a delta from {-3,-2,-1,1,2,3} to the
leading integer of the address, clamps the result at a minimum of 1, and
keeps the remainder of the string unchanged; with no leading integer the
address is returned unchanged; in particular "1Main St" under delta -3
(choice index 0) stays "1Main St". -/
theorem c7_numeric_drift_clamp (address : String) (k : Nat) :
    (address.data.takeWhile Char.isDigit = [] →
      vary_address_number address k = address) ∧
    (address.data.takeWhile Char.isDigit ≠ [] →
      ∃ d, d ∈ addressDeltas ∧
        vary_address_number address k =
          String.mk
            ((toString (max 1 ((digitsToNat (address.data.takeWhile Char.isDigit) : Int) + d)).toNat).data
              ++ address.data.dropWhile Char.isDigit) ∧
        (1 : Int) ≤ max 1 ((digitsToNat (address.data.takeWhile Char.isDigit) : Int) + d)) ∧
    vary_address_number "1Main St" 0 = "1Main St" := by
  refine ⟨?_, ?_, by decide⟩
  · intro h
    simp only [vary_address_number]
    rw [if_pos h]
  · intro h
    refine ⟨pickModInt addressDeltas k, ?_, ?_, le_max_left _ _⟩
    · unfold pickModInt
      have hlt : k % addressDeltas.length < addressDeltas.length := by
        simp only [addressDeltas, List.length_cons, List.length_nil]
        omega
      rw [List.getD_eq_getElem?_getD, List.getElem?_eq_getElem hlt]
      exact List.getElem_mem hlt
    · simp only [vary_address_number]
      rw [if_neg h]

/-- C7 witness: the drift theorem applied at "1Main St" with choice
index 0 (delta -3). -/
theorem c7_numeric_drift_clamp_witness :
    ("1Main St" : String).data.takeWhile Char.isDigit ≠ [] ∧
    ∃ d, d ∈ addressDeltas ∧
      vary_address_number "1Main St" 0 =
        String.mk
          ((toString (max 1 ((digitsToNat (("1Main St" : String).data.takeWhile Char.isDigit) : Int) + d)).toNat).data
            ++ ("1Main St" : String).data.dropWhile Char.isDigit) ∧
      (1 : Int) ≤ max 1 ((digitsToNat (("1Main St" : String).data.takeWhile Char.isDigit) : Int) + d) :=
  ⟨by decide, (c7_numeric_drift_clamp "1Main St" 0).2.1 (by decide)⟩

/-- C8: on a bare 5-digit numeric postal code, the "replace the last two
digits" branch of `vary_postal_code` returns a 5-character numeric string
whose first three characters equal the input's first three characters. -/
theorem c8_postal_drift_last_two (pc : String) (dec : PostalDec)
    (h5 : pc.data.length = 5) (hd : pc.data.all Char.isDigit = true)
    (hb : dec.lastBranch = false) :
    (vary_postal_code pc dec).data.length = 5 ∧
    (vary_postal_code pc dec).data.take 3 = pc.data.take 3 ∧
    (vary_postal_code pc dec).data.all Char.isDigit = true := by
  have hdash : pyIn "-" pc = false := by
    apply Bool.eq_false_iff.mpr
    intro hcon
    have hmem : Char.ofNat 45 ∈ pc.data :=
      (hasSubstring_singleton (Char.ofNat 45) pc.data).mp hcon
    have := List.all_eq_true.mp hd _ hmem
    simp at this
  have hne : pc.data ≠ [] := by
    intro h0
    rw [h0] at h5
    simp at h5
  have hds : isDigitStr pc = true := by
    unfold isDigitStr
    rw [hd]
    simp [List.isEmpty_iff, hne]
  have hres : vary_postal_code pc dec =
      pyDropRight pc 2 ++ digitStr dec.d1 ++ digitStr dec.d2 := by
    unfold vary_postal_code
    rw [if_neg (by rw [hdash]; exact Bool.false_ne_true), if_pos ⟨h5, hds⟩, hb]
    simp
  rw [hres]
  have hd3 : (pyDropRight pc 2).data = pc.data.take 3 := by
    unfold pyDropRight
    rw [h5]
  have hdata : (pyDropRight pc 2 ++ digitStr dec.d1 ++ digitStr dec.d2).data =
      pc.data.take 3 ++ [Nat.digitChar (dec.d1 % 10)] ++ [Nat.digitChar (dec.d2 % 10)] := by
    rw [String.data_append, String.data_append, hd3]
    rfl
  rw [hdata]
  have hlen3 : (pc.data.take 3).length = 3 := by
    rw [List.length_take, h5]
    decide
  refine ⟨?_, ?_, ?_⟩
  · simp [List.length_append, hlen3]
  · rw [List.append_assoc, List.take_append_of_le_length (by omega), List.take_take]
    simp
  · rw [List.all_append, List.all_append]
    have h1 : (pc.data.take 3).all Char.isDigit = true := by
      rw [List.all_eq_true] at hd ⊢
      exact fun c hc => hd c (List.mem_of_mem_take hc)
    have h2 := digitChar_isDigit (dec.d1 % 10) (Nat.mod_lt dec.d1 (by omega))
    have h3 := digitChar_isDigit (dec.d2 % 10) (Nat.mod_lt dec.d2 (by omega))
    simp [h1, h2, h3]

/-- C8 witness: the postal-drift theorem applied at "24972". -/
theorem c8_postal_drift_last_two_witness :
    ("24972" : String).data.length = 5 ∧
    ("24972" : String).data.all Char.isDigit = true ∧
    (vary_postal_code "24972" ⟨false, 0, false, 1, 5⟩).data.length = 5 ∧
    (vary_postal_code "24972" ⟨false, 0, false, 1, 5⟩).data.take 3 = ("24972" : String).data.take 3 ∧
    (vary_postal_code "24972" ⟨false, 0, false, 1, 5⟩).data.all Char.isDigit = true := by
  have h := c8_postal_drift_last_two "24972" ⟨false, 0, false, 1, 5⟩ (by decide) (by decide) rfl
  exact ⟨by decide, by decide, h.1, h.2.1, h.2.2⟩


/-- C6: the street-type substitution scans the fixed ordered list
{St, Ave, Rd, Dr, Blvd, Ct, Ln, Way}; on the first member found present
in the address it performs exactly one substitution, replacing that
member with a randomly chosen DIFFERENT member of the same list, then
stops; if none is present the address is unchanged; on "123 Main St" the
result never retains "St". -/
theorem c6_street_type_substitution :
    (∀ address pick st, street_types.find? (fun t => pyIn t address) = some st →
      ∃ nt, nt ∈ street_types ∧ nt ≠ st ∧
        substituteStreetType address pick = pyReplace address st nt) ∧
    (∀ address pick, street_types.find? (fun t => pyIn t address) = none →
      substituteStreetType address pick = address) ∧
    (∀ pick, pyIn "St" (substituteStreetType "123 Main St" pick) = false) := by
  have hmain : ∀ address pick st,
      street_types.find? (fun t => pyIn t address) = some st →
      ∃ nt, nt ∈ street_types ∧ nt ≠ st ∧
        substituteStreetType address pick = pyReplace address st nt := by
    intro address pick st h
    have hstmem : st ∈ street_types := List.mem_of_find?_eq_some h
    have hfil : street_types.filter (fun t => t ≠ st) ≠ [] := by
      by_cases hs : st = "St"
      · subst hs
        decide
      · intro hemp
        have hin : "St" ∈ street_types.filter (fun t => t ≠ st) := by
          rw [List.mem_filter]
          refine ⟨by decide, ?_⟩
          simp only [decide_eq_true_eq]
          exact fun hcon => hs hcon.symm
        rw [hemp] at hin
        exact List.not_mem_nil _ hin
    have hntmem := pickMod_mem _ pick hfil
    rw [List.mem_filter] at hntmem
    refine ⟨pickMod (street_types.filter (fun t => t ≠ st)) pick, hntmem.1, ?_, ?_⟩
    · have := hntmem.2
      simp only [decide_eq_true_eq] at this
      exact this
    · unfold substituteStreetType
      rw [h]
  refine ⟨hmain, ?_, ?_⟩
  · intro address pick h
    unfold substituteStreetType
    rw [h]
  · intro pick
    obtain ⟨nt, hmem, hne, heq⟩ := hmain "123 Main St" pick "St" (by decide)
    rw [heq]
    fin_cases hmem
    · exact absurd rfl hne
    all_goals decide

/-- C6 witness: the substitution theorem applied at "123 Main St". -/
theorem c6_street_type_substitution_witness :
    street_types.find? (fun t => pyIn t "123 Main St") = some "St" ∧
    ∃ nt, nt ∈ street_types ∧ nt ≠ "St" ∧
      substituteStreetType "123 Main St" 3 = pyReplace "123 Main St" "St" nt :=
  ⟨by decide, c6_street_type_substitution.1 "123 Main St" 3 "St" (by decide)⟩

/-- C10: mapping keys are matched as raw contiguous substrings, not whole
words — `str.replace` fires on a leading occurrence whatever follows it
and keeps scanning the remainder; an actual low-aggressiveness
abbreviation call replaces "North" inside "Northeast"; an actual typo
call replaces both occurrences of "Elementary" in one call; `pyReplace`
replaces every occurrence of "West". -/
theorem c10_raw_substring_matching :
    (∀ pat rep t : List Char, pat ≠ [] →
      listReplace (pat ++ t) pat rep = rep ++ listReplace t pat rep) ∧
    abbrevOutcome "Northeast Ave" false "Neast Ave" ∧
    typosOutcome "Elementary School Elementary" 1 "Elementry School Elementry" ∧
    pyReplace "West St West Ave" "West" "W" = "W St W Ave" := by
  refine ⟨fun pat rep t h => listReplace_head pat rep t h, ?_, ?_, by decide⟩
  · exact ⟨1, [("North", ["N", "NORTH"])], fun _ => 0, by decide,
      ⟨by decide, by decide, by decide⟩, by decide⟩
  · exact ⟨[("Elementary", ["Elementry", "Elmentary"])], fun _ => 0,
      ⟨by decide, by decide, by decide⟩, by decide⟩

/-- C10 witness: the head-occurrence law applied at "North"/"N" with the
in-word remainder "east Ave". -/
theorem c10_raw_substring_matching_witness :
    listReplace ("North".data ++ "east Ave".data) "North".data "N".data =
      "N".data ++ listReplace "east Ave".data "North".data "N".data :=
  c10_raw_substring_matching.1 "North".data "N".data "east Ave".data (by decide)

/-- A sampled key absent from the text leaves the text unchanged at its
loop step, so a loop whose sampled keys are all absent is a no-op. -/
theorem abbrevLoop_no_key (text : String) :
    ∀ (sample : List (String × List String)) (choice : Nat → Nat) (i : Nat),
      (∀ p ∈ sample, pyIn p.1 text = false) →
      abbrevLoop text sample choice i = text := by
  intro sample
  induction sample with
  | nil => intro choice i _; rfl
  | cons p rest ih =>
    intro choice i h
    have hstep : abbrevStep text p (choice i) = text := by
      unfold abbrevStep
      rw [h p (List.mem_cons_self p rest)]
      simp
    show abbrevLoop (abbrevStep text p (choice i)) rest choice (i + 1) = text
    rw [hstep]
    exact ih choice (i + 1) (fun q hq => h q (List.mem_cons_of_mem p hq))

/-- One abbreviation step keeps "Main Street" within the three possible
shapes {"Main Street", "Main St", "Main ST"}, whatever mapping entry and
choice are used. -/
theorem abbrevStep_mainStreet (p : String × List String) (hp : p ∈ abbreviations)
    (pick : Nat) (res : String)
    (hres : res = "Main Street" ∨ res = "Main St" ∨ res = "Main ST") :
    abbrevStep res p pick = "Main Street" ∨ abbrevStep res p pick = "Main St" ∨
      abbrevStep res p pick = "Main ST" := by
  fin_cases hp <;> rcases hres with rfl | rfl | rfl <;>
    simp only [abbrevStep] <;> split <;>
    first
      | decide
      | (exact absurd (by assumption) (by decide))
      | (rcases pickMod_pair "St" "ST" pick with h | h <;> rw [h] <;> decide)

/-- The abbreviation loop keeps "Main Street" within the three possible
shapes, for any sample drawn from the mapping table. -/
theorem abbrevLoop_mainStreet :
    ∀ (sample : List (String × List String)), (∀ p ∈ sample, p ∈ abbreviations) →
      ∀ (choice : Nat → Nat) (i : Nat) (res : String),
        (res = "Main Street" ∨ res = "Main St" ∨ res = "Main ST") →
        (abbrevLoop res sample choice i = "Main Street" ∨
         abbrevLoop res sample choice i = "Main St" ∨
         abbrevLoop res sample choice i = "Main ST") := by
  intro sample
  induction sample with
  | nil => intro _ choice i res hres; exact hres
  | cons p rest ih =>
    intro h choice i res hres
    show (abbrevLoop (abbrevStep res p (choice i)) rest choice (i + 1) = _ ∨ _)
    exact ih (fun q hq => h q (List.mem_cons_of_mem p hq)) choice (i + 1)
      (abbrevStep res p (choice i))
      (abbrevStep_mainStreet p (h p (List.mem_cons_self p rest)) (choice i) res hres)

/-- C5 counterexample: a low-aggressiveness abbreviation call can leave
the text completely unchanged even though a mapping key ("Street") is
present and substituting it would change the text — because the sample is
drawn from ALL mapping keys (here it picks the absent key "Road"), not
from the keys present in the text. -/
theorem c5_counterexample :
    abbrevOutcome "Main Street" false "Main Street" ∧
    ("Street", ["St", "ST"]) ∈ abbreviations ∧
    pyIn "Street" "Main Street" = true ∧
    pyReplace "Main Street" "Street" "St" ≠ "Main Street" ∧
    pyReplace "Main Street" "Street" "ST" ≠ "Main Street" := by
  refine ⟨⟨1, [("Road", ["Rd", "RD"])], fun _ => 0, by decide,
    ⟨by decide, by decide, by decide⟩, by decide⟩, by decide, by decide, by decide, by decide⟩

/-- C5 amended: `apply_abbreviations` samples 1–2 entries (low) from the
WHOLE mapping table, skips sampled keys not present (so it may substitute
nothing even when applicable keys are present), and replaces occurrences
only of sampled present keys: if no sampled key is present the text is
unchanged, and on "Main Street" a low-aggressiveness call yields exactly
"Main Street", "Main St" or "Main ST". -/
theorem c5_abbreviation_sampling_amended :
    (∀ (text : String) (sample : List (String × List String)) (choice : Nat → Nat),
      (∀ p ∈ sample, pyIn p.1 text = false) →
      apply_abbreviations text sample choice = text) ∧
    (∀ text result, abbrevOutcome text false result →
      ∃ sample choice, 1 ≤ sample.length ∧ sample.length ≤ 2 ∧
        (∀ p ∈ sample, p ∈ abbreviations) ∧
        result = apply_abbreviations text sample choice) ∧
    (∀ result, abbrevOutcome "Main Street" false result →
      result = "Main Street" ∨ result = "Main St" ∨ result = "Main ST") := by
  refine ⟨?_, ?_, ?_⟩
  · intro text sample choice h
    exact abbrevLoop_no_key text sample choice 0 h
  · intro text result hout
    obtain ⟨k, sample, choice, hk, ⟨hlen, -, hmem⟩, heq⟩ := hout
    have hk1 : 1 ≤ k := hk.1
    have hk2 : k ≤ 2 := hk.2
    rw [show abbreviations.length = 18 from rfl] at hlen
    refine ⟨sample, choice, by omega, by omega, hmem, heq⟩
  · intro result hout
    obtain ⟨k, sample, choice, -, ⟨-, -, hmem⟩, heq⟩ := hout
    rw [heq]
    exact abbrevLoop_mainStreet sample hmem choice 0 "Main Street" (Or.inl rfl)

/-- C5 witness: the amended theorem's no-op part applied at "Main Street"
with the absent-key sample [("Road", ...)]. -/
theorem c5_abbreviation_sampling_amended_witness :
    (∀ p ∈ ([("Road", ["Rd", "RD"])] : List (String × List String)),
      pyIn p.1 "Main Street" = false) ∧
    apply_abbreviations "Main Street" [("Road", ["Rd", "RD"])] (fun _ => 0) = "Main Street" :=
  ⟨by decide, c5_abbreviation_sampling_amended.1 "Main Street" [("Road", ["Rd", "RD"])]
    (fun _ => 0) (by decide)⟩

/-- C2 counterexample: against a 10-record pool with total 500, the run
does NOT raise a ConfigurationError before generation begins — the code
has no pool-size check at all.  It fails with an IndexError raised inside
the generation loops, after the first 10 derived records have already
been generated. -/
theorem c2_counterexample :
    (¬ ∃ p, main sr0 entA csv10 = .error (PyErr.configurationError, p)) ∧
    (∃ p, main sr0 entA csv10 = .error (PyErr.indexError, p) ∧ p.length = 10) := by
  have hrun : ∃ p, main sr0 entA csv10 = .error (PyErr.indexError, p) ∧ p.length = 10 :=
    ⟨_, rfl, rfl⟩
  obtain ⟨p0, hp0, hl0⟩ := hrun
  refine ⟨?_, ⟨p0, hp0, hl0⟩⟩
  rintro ⟨p, hp⟩
  rw [hp0] at hp
  simp at hp

/-- C2 amended: with a pool of 10 records and the configured total of
500, the run aborts with an uncaught IndexError raised during generation
(after the 10 available records were already consumed by the exact-match
loop), not with a ConfigurationError before generation; and no output
file is produced, since saving is only reached on success. -/
theorem c2_insufficient_pool_amended :
    (∃ p, main sr0 entA csv10 = .error (PyErr.indexError, p) ∧ p.length = 10) ∧
    (¬ ∃ out, main sr0 entA csv10 = .ok out) := by
  have hrun : ∃ p, main sr0 entA csv10 = .error (PyErr.indexError, p) ∧ p.length = 10 :=
    ⟨_, rfl, rfl⟩
  obtain ⟨p0, hp0, hl0⟩ := hrun
  refine ⟨⟨p0, hp0, hl0⟩, ?_⟩
  rintro ⟨out, hout⟩
  rw [hp0] at hout
  simp at hout

/-- C3 counterexample: an input file missing the required NAME column is
loaded without any error (the loader performs no validation, so no
ParseError is possible there), and the run then fails during generation
with a KeyError on "NAME" — not with a ParseError before generation. -/
theorem c3_counterexample :
    (load_valid_data csvNoName).length = 10 ∧
    (¬ ∃ p, main sr0 entA csvNoName = .error (PyErr.parseError, p)) ∧
    (∃ p, main sr0 entA csvNoName = .error (PyErr.keyError "NAME", p) ∧ p = []) := by
  have hrun : ∃ p, main sr0 entA csvNoName = .error (PyErr.keyError "NAME", p) ∧ p = [] :=
    ⟨_, rfl, rfl⟩
  obtain ⟨p0, hp0, hl0⟩ := hrun
  refine ⟨by decide, ?_, ⟨p0, hp0, hl0⟩⟩
  rintro ⟨p, hp⟩
  rw [hp0] at hp
  simp at hp

/-- C3 amended: a missing required column is not detected at load time —
`load_valid_data` returns the parsed rows unconditionally — and the run
fails with a KeyError("NAME") when the first band transform accesses the
missing field inside generation, having substituted no defaults and
generated no record; no output file is produced. -/
theorem c3_missing_column_amended :
    (∃ p, main sr0 entA csvNoName = .error (PyErr.keyError "NAME", p) ∧ p = []) ∧
    (¬ ∃ out, main sr0 entA csvNoName = .ok out) := by
  have hrun : ∃ p, main sr0 entA csvNoName = .error (PyErr.keyError "NAME", p) ∧ p = [] :=
    ⟨_, rfl, rfl⟩
  obtain ⟨p0, hp0, hl0⟩ := hrun
  refine ⟨⟨p0, hp0, hl0⟩, ?_⟩
  rintro ⟨out, hout⟩
  rw [hp0] at hout
  simp at hout

set_option maxRecDepth 8000 in
/-- C1 (refuting byte-identical determinism): with the seeded stream held
completely fixed — as `random.seed(42)` fixes it — the produced output
file still depends on the uuid4 entropy stream, which the seed does not
control: two complete runs (load, generate, save) over the same input
can differ, already in the `SOURCE_PKEY` of the first output row. -/
theorem c1_determinism_fails :
    ∃ e1 e2 : Nat → String, main sr0 e1 csv500 ≠ main sr0 e2 csv500 := by
  refine ⟨entA, entB, ?_⟩
  obtain ⟨outs1, h1, hl1, hc1⟩ :=
    generate_test_data_ok sr0 entA (load_valid_data csv500) csv500_good
  obtain ⟨outs2, h2, hl2, hc2⟩ :=
    generate_test_data_ok sr0 entB (load_valid_data csv500) csv500_good
  obtain ⟨o1, ho1, hk1⟩ := hc1 0 (by norm_num [TOTAL_RECORDS])
  obtain ⟨o2, ho2, hk2⟩ := hc2 0 (by norm_num [TOTAL_RECORDS])
  intro heq
  unfold main at heq
  rw [h1, h2] at heq
  have hsave : save_test_data outs1 = save_test_data outs2 := by
    injection heq
  have hrows : outs1.map rowOut = outs2.map rowOut := congrArg Csv.rows hsave
  have hget : (outs1.map rowOut).get? 0 = (outs2.map rowOut).get? 0 := by rw [hrows]
  rw [List.get?_map, List.get?_map, ho1, ho2] at hget
  have hro : rowOut o1 = rowOut o2 := by
    have h' : some (rowOut o1) = some (rowOut o2) := hget
    injection h'
  simp only [rowOut, fieldnames, List.map_cons] at hro
  have hhead : (o1.lookup "SOURCE_PKEY").getD "" = (o2.lookup "SOURCE_PKEY").getD "" :=
    List.head_eq_of_cons_eq hro
  rw [hk1, hk2] at hhead
  simp only [Option.getD_some] at hhead
  exact absurd hhead (by decide)

/-- C9 counterexample: a complete 500-record generation run can emit
duplicate synthetic identifiers — `generate_source_pkey` truncates the
uuid4 hex digest and nothing deduplicates the results, so if the entropy
draws repeat, so do the identifiers (here: records 0 and 1). -/
theorem c9_counterexample :
    ∃ outs, generate_test_data sr0 entA (load_valid_data csv500) = .ok outs ∧
      outs.length = TOTAL_RECORDS ∧
      ∃ o0 o1, outs.get? 0 = some o0 ∧ outs.get? 1 = some o1 ∧
        o0.lookup "SOURCE_PKEY" = o1.lookup "SOURCE_PKEY" := by
  obtain ⟨outs, h, hl, hc⟩ :=
    generate_test_data_ok sr0 entA (load_valid_data csv500) csv500_good
  obtain ⟨o0, ho0, hk0⟩ := hc 0 (by norm_num [TOTAL_RECORDS])
  obtain ⟨o1, ho1, hk1⟩ := hc 1 (by norm_num [TOTAL_RECORDS])
  exact ⟨outs, h, hl, o0, o1, ho0, ho1, by rw [hk0, hk1]; rfl⟩

/-- C9 amended: in a successful full run every one of the 500 generated
identifiers carries the fixed prefix "TEST_" followed by the upper-cased
12-character truncation of that record's uuid4 hex digest — the prefix
distinguishes them from canonical identifiers — and identifiers of two
records are distinct whenever their truncated upper-cased entropy draws
are distinct (which the code, however, does not enforce). -/
theorem c9_identifier_amended (sr : SeededRand) (e : Nat → String) (valid : List Row)
    (hpool : ∀ i, i < TOTAL_RECORDS →
      ∃ r, (sr.shuffle valid).get? i = some r ∧ goodRow r = true) :
    ∃ outs, generate_test_data sr e valid = .ok outs ∧ outs.length = TOTAL_RECORDS ∧
      (∀ i, i < TOTAL_RECORDS → ∃ o, outs.get? i = some o ∧
        o.lookup "SOURCE_PKEY" = some ("TEST_" ++ pyUpper (pyTake (e i) 12))) ∧
      (∀ i j oi oj, i < TOTAL_RECORDS → j < TOTAL_RECORDS →
        outs.get? i = some oi → outs.get? j = some oj →
        pyUpper (pyTake (e i) 12) ≠ pyUpper (pyTake (e j) 12) →
        oi.lookup "SOURCE_PKEY" ≠ oj.lookup "SOURCE_PKEY") := by
  obtain ⟨outs, h, hl, hc⟩ := generate_test_data_ok sr e valid hpool
  refine ⟨outs, h, hl, fun i hi => hc i hi, ?_⟩
  intro i j oi oj hi hj hoi hoj hne heq
  obtain ⟨o, ho, hk⟩ := hc i hi
  obtain ⟨o', ho', hk'⟩ := hc j hj
  rw [hoi] at ho
  rw [hoj] at ho'
  have hoio : oi = o := by injection ho
  have hojo : oj = o' := by injection ho'
  rw [hoio, hojo, hk, hk'] at heq
  have hpk : generate_source_pkey e i = generate_source_pkey e j := by
    injection heq
  exact hne (string_append_cancel "TEST_" _ _ hpk)

/-- C9 amended witness: the amended theorem applied to the concrete run
over `csv500` with entropy distinct at positions 0 and 1. -/
theorem c9_identifier_amended_witness :
    ∃ outs, generate_test_data sr0 entAB (load_valid_data csv500) = .ok outs ∧
      outs.length = TOTAL_RECORDS ∧
      (∀ i, i < TOTAL_RECORDS → ∃ o, outs.get? i = some o ∧
        o.lookup "SOURCE_PKEY" = some ("TEST_" ++ pyUpper (pyTake (entAB i) 12))) ∧
      (∀ i j oi oj, i < TOTAL_RECORDS → j < TOTAL_RECORDS →
        outs.get? i = some oi → outs.get? j = some oj →
        pyUpper (pyTake (entAB i) 12) ≠ pyUpper (pyTake (entAB j) 12) →
        oi.lookup "SOURCE_PKEY" ≠ oj.lookup "SOURCE_PKEY") :=
  c9_identifier_amended sr0 entAB (load_valid_data csv500) csv500_good

end GenTestMatches
